import Mathlib

/-!
Verification development for the reV configuration-resolution and
LCOE orchestration core (`reV/config/analysis_configs.py` and
`reV/lcoe/lcoe.py`).

The Python source is shallowly embedded: pure string manipulation is
modelled over `String` / `List Char`, pandas tables as association
lists of named columns, the on-disk file system as the list of paths
that exist, and fallible code as `Except`. External collaborators that
are not part of the two source files (`AnalysisConfig.check_files`,
`Gen.make_h5_fpath`, `execute_single` / `execute_parallel`) are
modelled from the specification and marked as such in their doc
comments.
-/

set_option maxRecDepth 4000

deriving instance DecidableEq for Except

namespace ReV

/-! ## String utilities (models of the Python primitives used) -/

/-- Decimal digit character, `digitCharOf n = chr(48 + n)` for `n < 10`. -/
def digitCharOf (n : Nat) : Char := Char.ofNat (48 + n)

/-- Fuel-driven decimal rendering of a natural number (digits of `str(n)`). -/
def natDigitsAux : Nat → Nat → List Char
  | 0, _ => []
  | fuel+1, n =>
    if n < 10 then [digitCharOf n]
    else natDigitsAux fuel (n / 10) ++ [digitCharOf (n % 10)]

/-- Model of Python `str(n)` for a non-negative integer `n`. -/
def natStr (n : Nat) : String := ⟨natDigitsAux (n+1) n⟩

/-- Boolean model of the Python substring test `pat in s`. -/
def occursB (pat s : List Char) : Bool := decide (pat <:+: s)

/-- Boolean model of Python `s.endswith(suf)`. -/
def endsWithB (s suf : String) : Bool := decide (suf.data <:+ s.data)

/-- The apostrophe character used by the Python `repr` of a string. -/
def quoteCh : Char := Char.ofNat 39

/-- Concatenation of character lists with a separator between
consecutive entries, the layout used by the Python `repr` of a list. -/
def joinSep (sep : List Char) : List (List Char) → List Char
  | [] => []
  | [x] => x
  | x :: y :: rest => x ++ sep ++ joinSep sep (y :: rest)

/-- Model of Python `str(files)` for a list of strings: the characters of
`"['f1', 'f2', ...]"`. -/
def pyStrL (files : List String) : List Char :=
  '[' :: joinSep (", ".data) (files.map (fun f => quoteCh :: (f.data ++ [quoteCh]))) ++ [']']

/-- Model of Python `s.replace(pat, rep)` restricted to replacing the first
occurrence; `str.format` with a single positional argument replaces the
first placeholder this way. -/
def replFirst (pat rep : List Char) : List Char → List Char
  | [] => []
  | c :: rest =>
    if pat <+: (c :: rest) then rep ++ (rest.drop (pat.length - 1))
    else c :: replFirst pat rep rest

/-- Fuel-driven model of Python `s.replace(pat, rep)` (replaces every
occurrence, scanning left to right). -/
def replAllAux (pat rep : List Char) : Nat → List Char → List Char
  | 0, l => l
  | _+1, [] => []
  | fuel+1, c :: rest =>
    if pat ≠ [] ∧ pat <+: (c :: rest) then rep ++ replAllAux pat rep fuel (rest.drop (pat.length - 1))
    else c :: replAllAux pat rep fuel rest

/-- Model of Python `s.replace(pat, rep)`. -/
def replAll (pat rep l : List Char) : List Char := replAllAux pat rep l.length l

/-- Ceiling division, the value of `math.ceil(a / b)` on exact arithmetic. -/
def ceilDiv (a b : Nat) : Nat := (a + b - 1) / b

/-! ## Embedding of `reV/config/analysis_configs.py` -/

/-- The `execution_control` block fields read by `points_control`. -/
structure ExecutionControl where
  option : String
  nodes : Nat
  ppn : Nat
deriving DecidableEq

/-- Failure modes of a Python property access, distinguishing a reV
`ConfigError` from an interpreter-level `UnboundLocalError`. -/
inductive PyFailure where
  | configError (msg : String)
  | unboundLocal (varName : String)
deriving DecidableEq

/-- The partition plan produced by `points_control` (a `PointsControl`
instance: full site count together with `sites_per_split`). -/
structure PartitionPlan where
  numSites : Nat
  sitesPerSplit : Nat
deriving DecidableEq

/-- Embedding of `SAMAnalysisConfig.points_control`
(`analysis_configs.py` lines 69-99).  The Python code assigns
`sites_per_split` only under the `peregrine`/`eagle` and `local`
branches; for any other execution option the local variable is never
bound and the subsequent use raises `UnboundLocalError`. -/
def pointsControl (numSites : Nat) (ec : ExecutionControl) : Except PyFailure PartitionPlan :=
  let sitesPerSplit : Option Nat :=
    if ec.option = "peregrine" ∨ ec.option = "eagle" then some (ceilDiv numSites ec.nodes)
    else if ec.option = "local" then some (ceilDiv numSites ec.ppn)
    else none
  match sitesPerSplit with
  | some s => Except.ok ⟨numSites, s⟩
  | none => Except.error (PyFailure.unboundLocal "sites_per_split")

/-- The `corrections` synonym table of `SAMAnalysisConfig.output_request`
(`analysis_configs.py` lines 112-134), in source order. -/
def corrections : List (String × String) :=
  [("cf_means", "cf_mean"),
   ("cf", "cf_mean"),
   ("capacity_factor", "cf_mean"),
   ("capacityfactor", "cf_mean"),
   ("cf_profiles", "cf_profile"),
   ("profiles", "cf_profile"),
   ("profile", "cf_profile"),
   ("generation", "annual_energy"),
   ("yield", "energy_yield"),
   ("generation_profile", "gen_profile"),
   ("generation_profiles", "gen_profile"),
   ("plane_of_array", "poa"),
   ("plane_of_array_irradiance", "poa"),
   ("gen_profiles", "gen_profile"),
   ("lcoe", "lcoe_fcr"),
   ("lcoe_nominal", "lcoe_nom"),
   ("real_lcoe", "lcoe_real"),
   ("net_present_value", "npv"),
   ("ppa", "ppa_price"),
   ("single_owner", "ppa_price"),
   ("singleowner", "ppa_price")]

/-- Non-fatal warnings emitted while resolving the output request. -/
inductive OutputWarning where
  | corrected (orig fixed : String)
  | unknown (orig : String)
deriving DecidableEq

/-- Embedding of the per-request loop of `SAMAnalysisConfig.output_request`
(`analysis_configs.py` lines 146-159): names already in the value set of
the synonym table pass through, keys are rewritten with a warning, and
anything else passes through with a warning. -/
def processRequests : List String → List String × List OutputWarning
  | [] => ([], [])
  | r :: rest =>
    match (corrections.map Prod.snd).contains r, corrections.lookup r with
    | true, _ => (r :: (processRequests rest).1, (processRequests rest).2)
    | false, some c =>
      (c :: (processRequests rest).1, OutputWarning.corrected r c :: (processRequests rest).2)
    | false, none =>
      (r :: (processRequests rest).1, OutputWarning.unknown r :: (processRequests rest).2)

/-- The raw `output_request` entry of the `project_control` section:
absent, a single string, or a list of strings. -/
inductive RawRequest where
  | missing
  | single (s : String)
  | multiple (l : List String)
deriving DecidableEq

/-- Embedding of `SAMAnalysisConfig.output_request`
(`analysis_configs.py` lines 101-161): defaulting, the single-string
promotion to a one-element list, and the resolution loop. -/
def outputRequest (req : RawRequest) : List String × List OutputWarning :=
  let temp : List String :=
    match req with
    | RawRequest.missing => ["cf_mean"]
    | RawRequest.single s => [s]
    | RawRequest.multiple l => l
  processRequests temp

/-- The fields of an `EconConfig` read by the `cf_files` property. -/
structure EconFilesConfig where
  cf_file : String
  years : List Nat
deriving DecidableEq

/-- Errors raised during `cf_files` resolution. -/
inductive CfFilesError where
  | missingFile (f : String)
  | lengthMismatch
  | yearNotFound (y : Nat)
deriving DecidableEq

/-- The literal year-placeholder token of templated paths. -/
def yearPlaceholder : String := "\x7b\x7d"

/-- Model of `fname.format(year)`: the first placeholder is replaced by
the decimal text of the year. -/
def formatYear (fname : String) (y : Nat) : String :=
  ⟨replFirst yearPlaceholder.data (natStr y).data fname.data⟩

/-- Modelled from the spec: `AnalysisConfig.check_files` (declared in
`base_analysis_config.py`, which is not among the shown sources) verifies
that every resolved path exists on disk and fails on the first missing
one.  The file system is abstracted as the list of existing paths. -/
def checkFilesFirstMissing (files existing : List String) : Option String :=
  files.find? (fun f => !existing.contains f)

/-- The branch of `EconConfig.cf_files` that computes the candidate
file list (`analysis_configs.py` lines 366-378): template expansion if
the configured path contains the year placeholder, pipeline resolution
if it contains the `PIPELINE` token, literal single-path fallback
otherwise.  `pipelineFiles` stands for the list returned by
`Pipeline.parse_previous`. -/
def cfResolvedList (cfg : EconFilesConfig) (pipelineFiles : List String) : List String :=
  match occursB yearPlaceholder.data cfg.cf_file.data,
        occursB "PIPELINE".data cfg.cf_file.data with
  | true, _ => cfg.years.map (formatYear cfg.cf_file)
  | false, true => pipelineFiles
  | false, false => [cfg.cf_file]

/-- Embedding of `EconConfig.cf_files` (`analysis_configs.py` lines
355-396): the candidate list, then the unconditional existence check,
and, for non-pipeline inputs only, the length check and the textual
year check against `str(cf_files)`. -/
def cfFiles (cfg : EconFilesConfig) (pipelineFiles existing : List String) :
    Except CfFilesError (List String) :=
  match checkFilesFirstMissing (cfResolvedList cfg pipelineFiles) existing with
  | some f => Except.error (CfFilesError.missingFile f)
  | none =>
    match occursB "PIPELINE".data cfg.cf_file.data with
    | true => Except.ok (cfResolvedList cfg pipelineFiles)
    | false =>
      if (cfResolvedList cfg pipelineFiles).length ≠ cfg.years.length then
        Except.error CfFilesError.lengthMismatch
      else
        match cfg.years.find?
            (fun y => !occursB (natStr y).data (pyStrL (cfResolvedList cfg pipelineFiles))) with
        | some y => Except.error (CfFilesError.yearNotFound y)
        | none => Except.ok (cfResolvedList cfg pipelineFiles)

/-! ## Embedding of `reV/lcoe/lcoe.py` -/

/-- A pandas `DataFrame` abstracted to what the orchestrator inspects:
the name of its index, the index values, and named data columns. -/
structure DataTable where
  indexName : Option String
  index : List Nat
  cols : List (String × List Nat)
deriving DecidableEq

/-- Inputs accepted by the `site_data` setter: a string (carrying the
table that `pd.read_csv` would parse from that path), an in-memory
table, or anything else. -/
inductive SiteDataInput where
  | strInput (s : String) (parsed : DataTable)
  | dfInput (t : DataTable)
  | otherInput
deriving DecidableEq

/-- Errors raised by the `site_data` setter. -/
inductive SiteDataError where
  | unusable
  | missingGid
deriving DecidableEq

/-- Model of `DataFrame.set_index('gid', drop=True)`: the `gid` column
becomes the index and is removed from the columns. -/
def setIndexGid (t : DataTable) : DataTable :=
  { indexName := some "gid",
    index := (t.cols.lookup "gid").getD t.index,
    cols := t.cols.filter (fun c => c.1 ≠ "gid") }

/-- Embedding of the `site_data` setter (`lcoe.py` lines 79-109) as a
state transition: `prev` is the table already stored in `_site_data`
(`none` when the attribute was never set).  The usability check tests
whether the attribute exists (`hasattr`), not whether the current
assignment stored anything. -/
def siteDataCur (prev : Option DataTable) (inp : SiteDataInput) : Option DataTable :=
  match inp with
  | SiteDataInput.strInput s parsed => if endsWithB s ".csv" then some parsed else prev
  | SiteDataInput.dfInput t => some t
  | SiteDataInput.otherInput => prev

/-- Embedding of the body of the `site_data` setter after the
assignment branches: the `hasattr` usability check followed by the
`gid` checks and the index promotion. -/
def siteDataSet (prev : Option DataTable) (inp : SiteDataInput) :
    Except SiteDataError DataTable :=
  match siteDataCur prev inp with
  | none => Except.error SiteDataError.unusable
  | some t =>
    if "gid" ∉ t.cols.map Prod.fst ∧ t.indexName ≠ some "gid" then
      Except.error SiteDataError.missingGid
    else Except.ok (if t.indexName ≠ some "gid" then setIndexGid t else t)

/-- An unusable `site_data` assignment: a string not ending in `.csv`,
or a value that is neither string nor table. -/
def UnusableInput : SiteDataInput → Prop
  | SiteDataInput.strInput s _ => ¬ endsWithB s ".csv" = true
  | SiteDataInput.dfInput _ => False
  | SiteDataInput.otherInput => True

instance : DecidablePred UnusableInput := by
  intro inp
  cases inp <;> simp [UnusableInput] <;> infer_instance

/-- The `.h5` filename extension. -/
def h5Ext : String := ".h5"

/-- Modelled from the spec: `Gen.make_h5_fpath` (declared in
`generation.py`, which is not among the shown sources) joins the target
filename under the output directory and normalizes it to carry the
`.h5` extension; directory creation is I/O and is not modelled. -/
def makeH5Fpath (fout dirout : String) : String :=
  let f := if endsWithB fout h5Ext then fout else fout ++ h5Ext
  dirout ++ "/" ++ f

/-- Embedding of `LCOE.handle_fout` (`lcoe.py` lines 123-149): the year
text is searched in the full joined path, and when absent it is injected
by replacing every `.h5` occurrence with `_{year}.h5`. -/
def handleFout (fout dirout : String) (year : Nat) : String :=
  let f := makeH5Fpath fout dirout
  if occursB (natStr year).data f.data then f
  else if endsWithB f h5Ext then
    ⟨replAll h5Ext.data ("_" ++ natStr year ++ h5Ext).data f.data⟩
  else f

/-- The filename portion of a path: the characters after the last
separator. -/
def fileNamePart (s : String) : String :=
  ⟨(s.data.reverse.takeWhile (fun c => c ≠ '/')).reverse⟩

/-- Errors raised while building `site_df`: a dataset read on a name
that does not exist in the source (raised by the output handler), or the
explicit `KeyError` of the final fallback branch. -/
inductive SiteDfError where
  | datasetRead (name : String)
  | lookupKeyError
deriving DecidableEq

/-- The capacity-factor result source as read by the orchestrator: the
named h5 datasets, the columns of the `meta` table, and the `gid`
values of `meta`. -/
structure CfSource where
  dsets : List (String × List Nat)
  metaCols : List (String × List Nat)
  gids : List Nat
deriving DecidableEq

/-- Embedding of the dataset-selection core of `LCOE.site_df`
(`lcoe.py` lines 177-196): the year-specific and mean dataset tests are
substring checks against `str(list(cfh.dsets))`, the meta test is exact
column membership, and a fired dataset branch then reads the exactly
named dataset (a read of an absent name fails in the handler). -/
def siteDfCore (src : CfSource) (cfYear : String) : Except SiteDfError DataTable :=
  if occursB ("cf_" ++ cfYear).data (pyStrL (src.dsets.map Prod.fst)) then
    match src.dsets.lookup ("cf_" ++ cfYear) with
    | some arr => Except.ok ⟨some "gid", src.gids, [("capacity_factor", arr)]⟩
    | none => Except.error (SiteDfError.datasetRead ("cf_" ++ cfYear))
  else if occursB "cf_means".data (pyStrL (src.dsets.map Prod.fst)) then
    match src.dsets.lookup "cf_means" with
    | some arr => Except.ok ⟨some "gid", src.gids, [("capacity_factor", arr)]⟩
    | none => Except.error (SiteDfError.datasetRead "cf_means")
  else
    match src.metaCols.lookup "cf_means" with
    | some arr => Except.ok ⟨some "gid", src.gids, [("capacity_factor", arr)]⟩
    | none => Except.error SiteDfError.lookupKeyError

/-- Model of the left-merge of `site_data` into `site_df` performed by
`check_offshore` (`lcoe.py` lines 220-226): the site-data columns are
appended, renamed with the `_site` suffix on a collision. -/
def mergeSiteData (t sd : DataTable) : DataTable :=
  { t with
    cols := t.cols ++ sd.cols.map (fun c =>
      (if (t.cols.map Prod.fst).contains c.1 then c.1 ++ "_site" else c.1, c.2)) }

/-- Embedding of `LCOE.check_offshore` (`lcoe.py` lines 204-226) for an
instance whose `_site_df` is `t`: when no `offshore` column is attached
yet and `meta` carries one, the flag column is appended and the optional
site-data table is merged in. -/
def checkOffshore (src : CfSource) (siteData : Option DataTable) (t : DataTable) : DataTable :=
  if (t.cols.map Prod.fst).contains "offshore" then t
  else
    match src.metaCols.lookup "offshore" with
    | some arr =>
      match siteData with
      | some sd => mergeSiteData { t with cols := t.cols ++ [("offshore", arr)] } sd
      | none => { t with cols := t.cols ++ [("offshore", arr)] }
    | none => t

/-- Embedding of the `LCOE.site_df` property (`lcoe.py` lines 166-202):
the selection core followed by the offshore guard (a substring check of
`offshore` against the rendered column names) and `check_offshore`. -/
def siteDf (src : CfSource) (cfYear : String) (siteData : Option DataTable) :
    Except SiteDfError DataTable :=
  (siteDfCore src cfYear).map (fun t =>
    if occursB "offshore".data (pyStrL (t.cols.map Prod.fst)) then t
    else checkOffshore src siteData t)

/-- One write issued to the output-handler collaborator. -/
structure WriteCall where
  fpath : String
deriving DecidableEq

/-- Embedding of `LCOE.flush` (`lcoe.py` lines 245-271), returning the
list of write calls issued to the output handler: exactly one write when
`fout` is a string and `out` is non-empty, and none otherwise. -/
def flushWrites (fout : Option String) (dirout : String) (cfYear : Nat)
    (out : List (Nat × Nat)) : List WriteCall :=
  match fout with
  | some f => if out ≠ [] then [⟨handleFout f dirout cfYear⟩] else []
  | none => []

/-- The per-partition result mapping returned by the simulation engine. -/
abbrev PartResult := List (Nat × Nat)

/-- Modelled from the spec: `execute_single` (declared in
`reV/utilities/execution.py`, which is not among the shown sources) runs
the pure per-partition callable on each partition in order and returns
the merged results. -/
def executeSingleM (run : List Nat → PartResult) (parts : List (List Nat)) :
    List PartResult :=
  parts.map run

/-- Modelled from the spec: `execute_parallel` (declared in
`reV/utilities/execution.py`, which is not among the shown sources) runs
the pure per-partition callable across workers that complete in the
arbitrary order `sched`, then merges the results back in partition-index
order. -/
def executeParallelM (run : List Nat → PartResult) (parts : List (List Nat))
    (sched : List Nat) : List PartResult :=
  let tagged := sched.filterMap (fun i => (parts.get? i).map (fun p => (i, run p)))
  (List.range parts.length).filterMap (fun i => tagged.lookup i)

/-- The fatal error of `run_direct`, carrying every requested site
missing from the capacity-factor metadata. -/
inductive RunDirectError where
  | missingSites (l : List Nat)
deriving DecidableEq

/-- The set difference `set(pc.sites) - set(gids)` as the deduplicated
list of requested sites absent from the metadata. -/
def missingFrom (sites gids : List Nat) : List Nat :=
  (sites.filter (fun s => !gids.contains s)).dedup

/-- Embedding of `LCOE.run_direct` (`lcoe.py` lines 297-382): the
partition plan is abstracted as the list of site partitions, the
metadata `gid` set as `gids`; the missing-site check happens before any
dispatch, and dispatch is serial for one worker and parallel
otherwise. -/
def runDirect (run : List Nat → PartResult) (parts : List (List Nat)) (gids : List Nat)
    (nWorkers : Nat) (sched : List Nat) : Except RunDirectError (List PartResult) :=
  let sites := parts.flatten
  let diff := missingFrom sites gids
  if diff ≠ [] then Except.error (RunDirectError.missingSites diff)
  else if nWorkers = 1 then Except.ok (executeSingleM run parts)
  else Except.ok (executeParallelM run parts sched)

/-! ## Supporting lemmas -/

theorem digitCharOf_isDigit {n : Nat} (h : n < 10) : (digitCharOf n).isDigit = true := by
  interval_cases n <;> decide

theorem natDigitsAux_spec :
    ∀ (fuel n : Nat), n < fuel →
      natDigitsAux fuel n ≠ [] ∧ ∀ c ∈ natDigitsAux fuel n, c.isDigit = true := by
  intro fuel
  induction fuel with
  | zero => intro n hn; omega
  | succ fuel ih =>
    intro n hn
    by_cases h : n < 10
    · refine ⟨by simp [natDigitsAux, h], ?_⟩
      intro c hc
      simp [natDigitsAux, h] at hc
      subst hc
      exact digitCharOf_isDigit h
    · have hdiv : n / 10 < fuel := by
        have h1 : n / 10 < n := Nat.div_lt_self (by omega) (by omega)
        omega
      obtain ⟨hne, hdig⟩ := ih (n / 10) hdiv
      refine ⟨by simp [natDigitsAux, h], ?_⟩
      intro c hc
      simp only [natDigitsAux, if_neg h, List.mem_append, List.mem_singleton] at hc
      rcases hc with hc | hc
      · exact hdig c hc
      · subst hc
        exact digitCharOf_isDigit (Nat.mod_lt _ (by omega))

theorem natStr_ne_nil (n : Nat) : (natStr n).data ≠ [] :=
  (natDigitsAux_spec (n+1) n (by omega)).1

theorem natStr_digits (n : Nat) : ∀ c ∈ (natStr n).data, c.isDigit = true :=
  (natDigitsAux_spec (n+1) n (by omega)).2

theorem occursB_iff {p s : List Char} : occursB p s = true ↔ p <:+: s := by
  simp [occursB]

theorem endsWithB_iff {s suf : String} : endsWithB s suf = true ↔ suf.data <:+ s.data := by
  simp [endsWithB]

theorem suffix_append_left {t b : List Char} (h : t <:+ b) (a : List Char) : t <:+ a ++ b := by
  obtain ⟨w, hw⟩ := h
  exact ⟨a ++ w, by rw [← hw]; simp⟩

theorem infix_rep_replFirst {pat rep : List Char} (hpat : pat ≠ []) :
    ∀ {l : List Char}, pat <:+: l → rep <:+: replFirst pat rep l := by
  intro l
  induction l with
  | nil => intro h; exact absurd (List.eq_nil_of_infix_nil h) hpat
  | cons c rest ih =>
    intro h
    by_cases hpre : pat <+: (c :: rest)
    · simp only [replFirst, if_pos hpre]
      exact List.prefix_append rep _ |>.isInfix
    · have hrest : pat <:+: rest := (List.infix_cons_iff.mp h).resolve_left hpre
      simp only [replFirst, if_neg hpre]
      exact List.infix_cons (ih hrest)

theorem infix_rep_replAllAux {pat rep : List Char} (hpat : pat ≠ []) :
    ∀ (fuel : Nat) (l : List Char), l.length ≤ fuel → pat <:+: l →
      rep <:+: replAllAux pat rep fuel l := by
  intro fuel
  induction fuel with
  | zero =>
    intro l hl hp
    have : l = [] := List.length_eq_zero.mp (by omega)
    subst this
    exact absurd (List.eq_nil_of_infix_nil hp) hpat
  | succ fuel ih =>
    intro l hl hp
    match l with
    | [] => exact absurd (List.eq_nil_of_infix_nil hp) hpat
    | c :: rest =>
      by_cases hpre : pat <+: (c :: rest)
      · simp only [replAllAux, if_pos (And.intro hpat hpre)]
        exact List.prefix_append rep _ |>.isInfix
      · have hcond : ¬ (pat ≠ [] ∧ pat <+: (c :: rest)) := fun hc => hpre hc.2
        have hrest : pat <:+: rest := (List.infix_cons_iff.mp hp).resolve_left hpre
        simp only [replAllAux, if_neg hcond]
        have hlen : rest.length ≤ fuel := by
          simp only [List.length_cons] at hl
          omega
        exact List.infix_cons (ih rest hlen hrest)

theorem infix_rep_replAll {pat rep l : List Char} (hpat : pat ≠ []) (hp : pat <:+: l) :
    rep <:+: replAll pat rep l :=
  infix_rep_replAllAux hpat l.length l (Nat.le_refl _) hp

theorem digit_prefix_drop :
    ∀ {s : List Char} (x : List Char) {b : List Char},
      (∀ c ∈ s, c.isDigit = true) → (∀ c ∈ b, c.isDigit = false) →
      s <+: x ++ b → s <+: x := by
  intro s
  induction s with
  | nil => intro x b _ _ _; exact List.nil_prefix
  | cons c s' ih =>
    intro x b hdig hb h
    match x with
    | [] =>
      exfalso
      have hc : c ∈ b := List.IsPrefix.mem (List.mem_cons_self c s') (by simpa using h)
      have h1 := hdig c (List.mem_cons_self c s')
      have h2 := hb c hc
      rw [h1] at h2
      cases h2
    | d :: x' =>
      have h' : c :: s' <+: d :: (x' ++ b) := by simpa using h
      obtain ⟨hcd, hs'⟩ := List.cons_prefix_cons.mp h'
      have := ih x' (fun e he => hdig e (List.mem_cons_of_mem _ he)) hb hs'
      exact List.cons_prefix_cons.mpr ⟨hcd, this⟩

theorem digit_infix_dropLeft :
    ∀ (a : List Char) {s x : List Char}, s ≠ [] →
      (∀ c ∈ s, c.isDigit = true) → (∀ c ∈ a, c.isDigit = false) →
      s <:+: a ++ x → s <:+: x := by
  intro a
  induction a with
  | nil => intro s x _ _ _ h; simpa using h
  | cons d a' ih =>
    intro s x hs hdig ha h
    rcases List.infix_cons_iff.mp (by simpa using h) with hpre | hrest
    · exfalso
      match s, hs with
      | c :: s'', _ =>
        have hcd : c = d := (List.cons_prefix_cons.mp hpre).1
        have h1 := hdig c (List.mem_cons_self c s'')
        have h2 := ha d (List.mem_cons_self d a')
        rw [hcd] at h1
        rw [h1] at h2
        cases h2
    · exact ih hs hdig (fun c hc => ha c (List.mem_cons_of_mem _ hc)) hrest

theorem digit_infix_dropRight {s x b : List Char} (hs : s ≠ [])
    (hdig : ∀ c ∈ s, c.isDigit = true) (hb : ∀ c ∈ b, c.isDigit = false)
    (h : s <:+: x ++ b) : s <:+: x := by
  have hrev : s.reverse <:+: b.reverse ++ x.reverse := by
    have h2 := List.reverse_infix.mpr h
    simpa [List.reverse_append] using h2
  have hres := digit_infix_dropLeft b.reverse (by simpa using hs)
    (fun c hc => hdig c (List.mem_reverse.mp hc))
    (fun c hc => hb c (List.mem_reverse.mp hc)) hrev
  have := List.reverse_infix.mpr hres
  simpa using this

theorem digit_infix_extract {s a x b : List Char} (hs : s ≠ [])
    (hdig : ∀ c ∈ s, c.isDigit = true) (ha : ∀ c ∈ a, c.isDigit = false)
    (hb : ∀ c ∈ b, c.isDigit = false) (h : s <:+: a ++ x ++ b) : s <:+: x := by
  have h1 : s <:+: a ++ (x ++ b) := by simpa [List.append_assoc] using h
  exact digit_infix_dropRight hs hdig hb (digit_infix_dropLeft a hs hdig ha h1)

theorem mem_infix_joinSep {sep : List Char} :
    ∀ {xs : List (List Char)} {x : List Char}, x ∈ xs → x <:+: joinSep sep xs := by
  intro xs
  induction xs with
  | nil => intro x hx; cases hx
  | cons y rest ih =>
    intro x hx
    match rest with
    | [] =>
      have : x = y := by simpa using hx
      subst this
      exact List.infix_rfl
    | z :: rest' =>
      rcases List.mem_cons.mp hx with hxy | hxr
      · subst hxy
        show x <:+: x ++ sep ++ joinSep sep (z :: rest')
        rw [List.append_assoc]
        exact (List.prefix_append x _).isInfix
      · have hj := ih hxr
        show x <:+: y ++ sep ++ joinSep sep (z :: rest')
        rw [List.append_assoc]
        exact hj.trans (suffix_append_left (List.suffix_rfl) _ |>.isInfix) |>.trans
          ((List.suffix_append (y) _).isInfix)

theorem mem_infix_pyStrL {f : String} {files : List String} (h : f ∈ files) :
    f.data <:+: pyStrL files := by
  have h1 : f.data <:+: quoteCh :: (f.data ++ [quoteCh]) := by
    have := List.infix_append [quoteCh] f.data [quoteCh]
    simpa using this
  have h2 : (quoteCh :: (f.data ++ [quoteCh])) <:+:
      joinSep (", ".data) (files.map (fun g => quoteCh :: (g.data ++ [quoteCh]))) :=
    mem_infix_joinSep (List.mem_map_of_mem _ h)
  have h3 : joinSep (", ".data) (files.map (fun g => quoteCh :: (g.data ++ [quoteCh]))) <:+:
      pyStrL files := by
    show _ <:+: '[' :: _ ++ [']']
    exact List.infix_cons ((List.prefix_append _ _).isInfix)
  exact h1.trans (h2.trans h3)

theorem makeH5Fpath_endsWith (fout dirout : String) :
    endsWithB (makeH5Fpath fout dirout) h5Ext = true := by
  rw [endsWithB_iff]
  unfold makeH5Fpath
  by_cases h : endsWithB fout h5Ext = true
  · simp only [h, if_true, String.data_append]
    exact suffix_append_left (endsWithB_iff.mp h) _
  · simp only [Bool.not_eq_true] at h
    simp only [h, Bool.false_eq_true, if_false, String.data_append]
    exact suffix_append_left (List.suffix_append _ _) _

theorem lookup_some_mem_fst {β : Type} {l : List (String × β)} {k : String} {v : β}
    (h : l.lookup k = some v) : k ∈ l.map Prod.fst := by
  induction l with
  | nil => cases h
  | cons p rest ih =>
    obtain ⟨a, b⟩ := p
    rw [List.lookup_cons] at h
    by_cases hk : (k == a) = true
    · simp only [List.map_cons, List.mem_cons]
      exact Or.inl (beq_iff_eq.mp hk)
    · rw [Bool.not_eq_true] at hk
      rw [hk] at h
      exact List.mem_cons_of_mem _ (ih h)

/-! ## Claim theorems -/

/-- C1 (code evaluation at the failing input): a configuration whose
execution-control option is neither a recognized cluster mode
(`peregrine`, `eagle`) nor `local` makes the first `points_control`
access fail with an interpreter `UnboundLocalError` on
`sites_per_split`, not with a configuration error — the property's
claimed `ConfigError` is never raised on this path. -/
theorem c1_unrecognized_mode_unbound_local :
    pointsControl 100 ⟨"slurm", 4, 2⟩ =
      Except.error (PyFailure.unboundLocal "sites_per_split") ∧
    ∀ msg, pointsControl 100 ⟨"slurm", 4, 2⟩ ≠ Except.error (PyFailure.configError msg) := by
  refine ⟨by decide, ?_⟩
  intro msg h
  have h1 : pointsControl 100 ⟨"slurm", 4, 2⟩ =
      Except.error (PyFailure.unboundLocal "sites_per_split") := by decide
  rw [h1] at h
  injection h with h2
  exact PyFailure.noConfusion h2

/-- C2 (counterexample): with `cf_file = "PIPELINE"`, a pipeline-resolved
path that does not exist on disk raises the missing-file error — the
on-disk existence verification is not skipped for pipeline-resolved
sets. -/
theorem c2_pipeline_missing_file_counterexample :
    cfFiles ⟨"PIPELINE", [2012]⟩ ["/out/econ/run_2012.h5"] [] =
      Except.error (CfFilesError.missingFile "/out/econ/run_2012.h5") := by
  decide

/-- C2 (amended): for a pipeline-resolved `cf_file`, the existence of
every resolved path is still verified (a missing path is a fatal
missing-file error); what is skipped for pipeline sets is only the
year-count and per-year text checks, so when every pipeline path exists
the resolution succeeds for any list of analysis years. -/
theorem c2_pipeline_existence_checked (cfg : EconFilesConfig)
    (pipelineFiles existing : List String)
    (hpl : occursB "PIPELINE".data cfg.cf_file.data = true)
    (htpl : occursB yearPlaceholder.data cfg.cf_file.data = false) :
    (∀ f, checkFilesFirstMissing pipelineFiles existing = some f →
      cfFiles cfg pipelineFiles existing = Except.error (CfFilesError.missingFile f)) ∧
    (checkFilesFirstMissing pipelineFiles existing = none →
      cfFiles cfg pipelineFiles existing = Except.ok pipelineFiles) := by
  have hL : cfResolvedList cfg pipelineFiles = pipelineFiles := by
    unfold cfResolvedList
    rw [htpl, hpl]
  constructor
  · intro f hf
    unfold cfFiles
    rw [hL, hf]
  · intro hf
    unfold cfFiles
    rw [hL, hf]
    dsimp only
    rw [hpl]

/-- C2 witness: a pipeline set whose paths all exist resolves without
any year bookkeeping, and a pipeline set with a missing path fails. -/
theorem c2_pipeline_existence_checked_witness :
    cfFiles ⟨"PIPELINE", [1999, 2000]⟩ ["a.h5"] ["a.h5"] = Except.ok ["a.h5"] ∧
    cfFiles ⟨"PIPELINE", [1999, 2000]⟩ ["b.h5"] ["a.h5"] =
      Except.error (CfFilesError.missingFile "b.h5") := by
  constructor
  · exact (c2_pipeline_existence_checked ⟨"PIPELINE", [1999, 2000]⟩ ["a.h5"] ["a.h5"]
      (by decide) (by decide)).2 (by decide)
  · exact (c2_pipeline_existence_checked ⟨"PIPELINE", [1999, 2000]⟩ ["b.h5"] ["a.h5"]
      (by decide) (by decide)).1 "b.h5" (by decide)

/-- C4 (counterexample): when the year text already occurs in the
directory part of the joined path, `handle_fout` returns the path
unchanged, so the filename portion does not carry the year — refuting
the claim that the returned filename portion always contains the
year. -/
theorem c4_year_in_dirout_counterexample :
    fileNamePart (handleFout "lcoe.h5" "out_2012" 2012) = "lcoe.h5" ∧
    ¬ (natStr 2012).data <:+: (fileNamePart (handleFout "lcoe.h5" "out_2012" 2012)).data := by
  decide

/-- C4 (amended): `handle_fout` checks the year text against the full
joined path, not the filename portion; the returned full path always
contains the textual year (already present anywhere in it, or injected
into the filename by rewriting the `.h5` extension). -/
theorem c4_full_path_contains_year (fout dirout : String) (year : Nat) :
    (natStr year).data <:+: (handleFout fout dirout year).data := by
  unfold handleFout
  by_cases h1 : occursB (natStr year).data (makeH5Fpath fout dirout).data = true
  · simp only [h1, if_true]
    exact occursB_iff.mp h1
  · have hend := makeH5Fpath_endsWith fout dirout
    simp only [Bool.not_eq_true] at h1
    simp only [h1, Bool.false_eq_true, if_false, hend, if_true]
    have hpat : h5Ext.data ≠ [] := by decide
    have hinf : h5Ext.data <:+: (makeH5Fpath fout dirout).data :=
      (endsWithB_iff.mp hend).isInfix
    have hrep := @infix_rep_replAll h5Ext.data (("_" ++ natStr year ++ h5Ext).data)
      (makeH5Fpath fout dirout).data hpat hinf
    have hyear : (natStr year).data <:+: ("_" ++ natStr year ++ h5Ext).data := by
      simp only [String.data_append]
      exact List.infix_append _ _ _
    exact hyear.trans hrep

/-- C6: `flush` issues exactly one write call to the output handler when
an output path is configured and the aggregate is non-empty, and issues
none (silently, never an error — the embedding is a total function) when
the path is unset or the aggregate is empty. -/
theorem c6_flush_write_count (fout : Option String) (dirout : String) (cfYear : Nat)
    (out : List (Nat × Nat)) :
    (flushWrites fout dirout cfYear out).length = (if fout ≠ none ∧ out ≠ [] then 1 else 0) ∧
    (flushWrites fout dirout cfYear out = [] ↔ (fout = none ∨ out = [])) := by
  cases fout <;> by_cases h : out = [] <;> simp [flushWrites, h]

theorem siteDataSet_ok_gid {prev : Option DataTable} {inp : SiteDataInput} {t : DataTable}
    (h : siteDataSet prev inp = Except.ok t) : t.indexName = some "gid" := by
  unfold siteDataSet at h
  cases hcur : siteDataCur prev inp with
  | none => rw [hcur] at h; cases h
  | some t' =>
    rw [hcur] at h
    dsimp only at h
    by_cases hg : "gid" ∉ t'.cols.map Prod.fst ∧ t'.indexName ≠ some "gid"
    · rw [if_pos hg] at h; cases h
    · rw [if_neg hg] at h
      by_cases hix : t'.indexName ≠ some "gid"
      · rw [if_pos hix] at h
        cases h
        rfl
      · rw [if_neg hix] at h
        cases h
        simpa using hix

/-- C10: the `site_data` setter is not atomic on error across repeated
assignment: on an instance where the attribute was never set, an
unusable input (a string not ending in `.csv`, or neither string nor
table) raises the usability error; but after any previous successful
assignment, the same unusable input raises nothing and leaves the
previously stored table in place, because the check tests attribute
presence rather than the outcome of the current assignment. -/
theorem c10_site_data_setter_not_atomic (inp : SiteDataInput) (hbad : UnusableInput inp) :
    siteDataSet none inp = Except.error SiteDataError.unusable ∧
    ∀ (prev : Option DataTable) (inp0 : SiteDataInput) (t : DataTable),
      siteDataSet prev inp0 = Except.ok t → siteDataSet (some t) inp = Except.ok t := by
  have hcur : ∀ p : Option DataTable, siteDataCur p inp = p := by
    intro p
    cases inp with
    | strInput s parsed =>
      have hb : ¬ endsWithB s ".csv" = true := hbad
      simp [siteDataCur, hb]
    | dfInput t0 => exact absurd hbad (by simp [UnusableInput])
    | otherInput => rfl
  constructor
  · unfold siteDataSet
    rw [hcur none]
  · intro prev inp0 t h
    have hgid := siteDataSet_ok_gid h
    unfold siteDataSet
    rw [hcur (some t)]
    simp [hgid]

/-- C10 witness: a concrete failing first assignment and a concrete
silent no-op after a successful one. -/
theorem c10_site_data_setter_not_atomic_witness :
    siteDataSet none SiteDataInput.otherInput = Except.error SiteDataError.unusable ∧
    siteDataSet (some ⟨some "gid", [1], [("x", [2])]⟩) SiteDataInput.otherInput =
      Except.ok ⟨some "gid", [1], [("x", [2])]⟩ := by
  have h := c10_site_data_setter_not_atomic SiteDataInput.otherInput (by simp [UnusableInput])
  exact ⟨h.1, h.2 none (SiteDataInput.dfInput ⟨none, [1], [("gid", [1]), ("x", [2])]⟩) _
    (by decide)⟩

theorem pyStrL_singleton (f : String) :
    pyStrL [f] = ['[', quoteCh] ++ f.data ++ [quoteCh, ']'] := by
  simp [pyStrL, joinSep]

/-- C3: for a `cf_file` resolved in a non-pipeline mode (year-template
or literal), a successful `cf_files` resolution forces the resolved list
to have one path per analysis year with the textual form of the `i`-th
year contained in the `i`-th path; whenever that per-index property
fails, resolution fails with a configuration error. -/
theorem c3_non_pipeline_year_in_own_path (cfg : EconFilesConfig)
    (pipelineFiles existing files : List String)
    (hmode : occursB yearPlaceholder.data cfg.cf_file.data = true ∨
      occursB "PIPELINE".data cfg.cf_file.data = false)
    (hok : cfFiles cfg pipelineFiles existing = Except.ok files) :
    files.length = cfg.years.length ∧
    ∀ i, i < cfg.years.length →
      (natStr (cfg.years.getD i 0)).data <:+: (files.getD i "").data := by
  cases htpl : occursB yearPlaceholder.data cfg.cf_file.data with
  | true =>
    -- year-template mode: each path is built by substituting its own year
    have hL : cfResolvedList cfg pipelineFiles = cfg.years.map (formatYear cfg.cf_file) := by
      unfold cfResolvedList
      rw [htpl]
    have hfiles : files = cfg.years.map (formatYear cfg.cf_file) := by
      unfold cfFiles at hok
      rw [hL] at hok
      cases hchk : checkFilesFirstMissing (cfg.years.map (formatYear cfg.cf_file)) existing with
      | some f => rw [hchk] at hok; simp at hok
      | none =>
        rw [hchk] at hok
        cases hpl2 : occursB "PIPELINE".data cfg.cf_file.data with
        | true =>
          rw [hpl2] at hok
          exact (Except.ok.inj hok).symm
        | false =>
          rw [hpl2] at hok
          dsimp only at hok
          rw [if_neg (by simp)] at hok
          cases hy : cfg.years.find? (fun y =>
              !occursB (natStr y).data (pyStrL (cfg.years.map (formatYear cfg.cf_file)))) with
          | some y => rw [hy] at hok; simp at hok
          | none => rw [hy] at hok; exact (Except.ok.inj hok).symm
    subst hfiles
    refine ⟨by simp, ?_⟩
    intro i hi
    simp only [List.getD_eq_getElem?_getD, List.getElem?_map, List.getElem?_eq_getElem hi]
    simp only [Option.map_some', Option.getD_some]
    show (natStr _).data <:+:
      (replFirst yearPlaceholder.data (natStr _).data cfg.cf_file.data)
    exact infix_rep_replFirst (by decide) (occursB_iff.mp htpl)
  | false =>
    -- literal mode: a single path, one year, checked against str(cf_files)
    have hpl : occursB "PIPELINE".data cfg.cf_file.data = false := by
      rcases hmode with h | h
      · rw [htpl] at h; cases h
      · exact h
    have hL : cfResolvedList cfg pipelineFiles = [cfg.cf_file] := by
      unfold cfResolvedList
      rw [htpl, hpl]
    unfold cfFiles at hok
    rw [hL, hpl] at hok
    cases hchk : checkFilesFirstMissing [cfg.cf_file] existing with
    | some f => rw [hchk] at hok; simp at hok
    | none =>
      rw [hchk] at hok
      dsimp only at hok
      by_cases hlen : ([cfg.cf_file] : List String).length ≠ cfg.years.length
      · rw [if_pos hlen] at hok; simp at hok
      · rw [if_neg hlen] at hok
        have hlen1 : cfg.years.length = 1 := by
          simp only [List.length_singleton, ne_eq, not_not] at hlen
          omega
        cases hy : cfg.years.find? (fun y => !occursB (natStr y).data (pyStrL [cfg.cf_file])) with
        | some y => rw [hy] at hok; simp at hok
        | none =>
          rw [hy] at hok
          have hfiles : files = [cfg.cf_file] := (Except.ok.inj hok).symm
          subst hfiles
          obtain ⟨y, hys⟩ := List.length_eq_one.mp hlen1
          have hocc : occursB (natStr y).data (pyStrL [cfg.cf_file]) = true := by
            have := List.find?_eq_none.mp hy y (by rw [hys]; exact List.mem_cons_self y [])
            simpa using this
          have hin : (natStr y).data <:+: pyStrL [cfg.cf_file] := occursB_iff.mp hocc
          rw [pyStrL_singleton] at hin
          have hymain : (natStr y).data <:+: cfg.cf_file.data :=
            digit_infix_extract (natStr_ne_nil y) (natStr_digits y)
              (by decide) (by decide) hin
          refine ⟨by omega, ?_⟩
          intro i hi
          have hi0 : i = 0 := by omega
          subst hi0
          rw [hys]
          simpa using hymain

/-- C3 witness: the template `cf_\x7b\x7d.h5` over the single year 2012
resolves successfully and the year text sits in its own path. -/
theorem c3_non_pipeline_year_in_own_path_witness :
    ([("cf_2012.h5" : String)].length = ([2012] : List Nat).length) ∧
    (∀ i, i < ([2012] : List Nat).length →
      (natStr (([2012] : List Nat).getD i 0)).data <:+:
        (([("cf_2012.h5" : String)]).getD i "").data) :=
  c3_non_pipeline_year_in_own_path ⟨"cf_\x7b\x7d.h5", [2012]⟩ [] ["cf_2012.h5"] ["cf_2012.h5"]
    (Or.inl (by decide)) (by decide)

/-- C5: when any requested site identifier is absent from the
capacity-factor metadata `gid` set, `run_direct` fails with the fatal
missing-site error whose payload names exactly the missing identifiers,
and no dispatch happens: the outcome is independent of the
per-partition work function. -/
theorem c5_missing_sites_fatal_before_dispatch
    (run : List Nat → PartResult) (parts : List (List Nat)) (gids : List Nat)
    (nWorkers : Nat) (sched : List Nat)
    (h : missingFrom parts.flatten gids ≠ []) :
    runDirect run parts gids nWorkers sched =
      Except.error (RunDirectError.missingSites (missingFrom parts.flatten gids)) ∧
    (∀ s, s ∈ missingFrom parts.flatten gids ↔ (s ∈ parts.flatten ∧ s ∉ gids)) ∧
    (∀ run2 : List Nat → PartResult,
      runDirect run2 parts gids nWorkers sched = runDirect run parts gids nWorkers sched) := by
  refine ⟨by simp [runDirect, h], ?_, ?_⟩
  · intro s
    generalize parts.flatten = sites
    simp [missingFrom, List.mem_dedup, List.mem_filter]
  · intro run2
    simp [runDirect, h]

/-- C5 witness: requesting sites 1, 2, 3 against metadata gids 1, 2
fails naming exactly site 3. -/
theorem c5_missing_sites_witness :
    runDirect (fun p => p.map (fun s => (s, s + 1))) [[1, 2, 3]] [1, 2] 1 [] =
      Except.error (RunDirectError.missingSites [3]) ∧
    (3 ∈ missingFrom ([[1, 2, 3]] : List (List Nat)).flatten [1, 2] ∧ 3 ∉ ([1, 2] : List Nat)) := by
  have h := c5_missing_sites_fatal_before_dispatch (fun p => p.map (fun s => (s, s + 1)))
    [[1, 2, 3]] [1, 2] 1 [] (by decide)
  refine ⟨h.1.trans (by decide), ?_, by decide⟩
  exact (h.2.1 3).mpr (by decide)

/-- The per-name resolution described by the claim: a name in the value
set of the synonym table passes through, a key is rewritten to its
canonical value, anything else passes through. -/
def resolveNameSpec (r : String) : String :=
  match (corrections.map Prod.snd).contains r, corrections.lookup r with
  | true, _ => r
  | false, some c => c
  | false, none => r

/-- The per-name warning described by the claim: none for a canonical
name, a correction warning for a key, an unknown-name warning
otherwise. -/
def warnSpec (r : String) : Option OutputWarning :=
  match (corrections.map Prod.snd).contains r, corrections.lookup r with
  | true, _ => none
  | false, some c => some (OutputWarning.corrected r c)
  | false, none => some (OutputWarning.unknown r)

/-- C7: output-variable resolution maps each requested name
independently and in order (canonical names pass through silently, keys
of the synonym table are rewritten with a warning, unknown names pass
through with a warning), a single string is treated as a one-element
list, the default request resolves to `["cf_mean"]` with no warning,
and the concrete request `"cf"` resolves to `["cf_mean"]` with one
correction warning. -/
theorem c7_output_request_resolution :
    (∀ reqs : List String,
      (processRequests reqs).1 = reqs.map resolveNameSpec ∧
      (processRequests reqs).2 = reqs.filterMap warnSpec) ∧
    (∀ s, outputRequest (RawRequest.single s) = processRequests [s]) ∧
    outputRequest RawRequest.missing = (["cf_mean"], []) ∧
    outputRequest (RawRequest.single "cf") =
      (["cf_mean"], [OutputWarning.corrected "cf" "cf_mean"]) := by
  refine ⟨?_, fun s => rfl, by decide, by decide⟩
  intro reqs
  induction reqs with
  | nil => exact ⟨rfl, rfl⟩
  | cons r rest ih =>
    cases h : (corrections.map Prod.snd).contains r with
    | true =>
      have hr : resolveNameSpec r = r := by
        unfold resolveNameSpec
        rw [h]
      have hw : warnSpec r = none := by
        unfold warnSpec
        rw [h]
      refine ⟨?_, ?_⟩
      · unfold processRequests
        rw [h]
        dsimp only
        rw [List.map_cons, hr, ih.1]
      · unfold processRequests
        rw [h]
        dsimp only
        rw [List.filterMap_cons, hw, ih.2]
    | false =>
      cases hl : corrections.lookup r with
      | some c =>
        have hr : resolveNameSpec r = c := by
          unfold resolveNameSpec
          rw [h, hl]
        have hw : warnSpec r = some (OutputWarning.corrected r c) := by
          unfold warnSpec
          rw [h, hl]
        refine ⟨?_, ?_⟩
        · unfold processRequests
          rw [h, hl]
          dsimp only
          rw [List.map_cons, hr, ih.1]
        · unfold processRequests
          rw [h, hl]
          dsimp only
          rw [List.filterMap_cons, hw, ih.2]
      | none =>
        have hr : resolveNameSpec r = r := by
          unfold resolveNameSpec
          rw [h, hl]
        have hw : warnSpec r = some (OutputWarning.unknown r) := by
          unfold warnSpec
          rw [h, hl]
        refine ⟨?_, ?_⟩
        · unfold processRequests
          rw [h, hl]
          dsimp only
          rw [List.map_cons, hr, ih.1]
        · unfold processRequests
          rw [h, hl]
          dsimp only
          rw [List.filterMap_cons, hw, ih.2]

theorem occursB_of_mem {f : String} {files : List String} (h : f ∈ files) :
    occursB f.data (pyStrL files) = true :=
  occursB_iff.mpr (mem_infix_pyStrL h)

theorem siteDfCore_ok_shape {src : CfSource} {y : String} {t0 : DataTable}
    (h : siteDfCore src y = Except.ok t0) :
    ∃ arr, t0 = ⟨some "gid", src.gids, [("capacity_factor", arr)]⟩ := by
  unfold siteDfCore at h
  split at h
  · cases hlk : src.dsets.lookup ("cf_" ++ y) with
    | some arr => rw [hlk] at h; exact ⟨arr, (Except.ok.inj h).symm⟩
    | none => rw [hlk] at h; simp at h
  · split at h
    · cases hlk : src.dsets.lookup "cf_means" with
      | some arr => rw [hlk] at h; exact ⟨arr, (Except.ok.inj h).symm⟩
      | none => rw [hlk] at h; simp at h
    · cases hlk : src.metaCols.lookup "cf_means" with
      | some arr => rw [hlk] at h; exact ⟨arr, (Except.ok.inj h).symm⟩
      | none => rw [hlk] at h; simp at h

theorem suffix_site_ne_cf (s : String) : s ++ "_site" ≠ "capacity_factor" := by
  intro heq
  have hsuf : ("_site" : String).data <:+ ("capacity_factor" : String).data := by
    refine ⟨s.data, ?_⟩
    rw [← String.data_append, heq]
  exact absurd hsuf (by decide)

/-- C8 (counterexample): a source whose only dataset is named
`cf_means_x` (no dataset exactly named `cf_means`, no year dataset, no
`cf_means` meta column) makes the substring test fire, and `site_df`
construction fails with a dataset-read error on `cf_means` instead of
the claimed branch-4 fatal lookup error. -/
theorem c8_substring_match_counterexample :
    siteDf ⟨[("cf_means_x", [1])], [], [7]⟩ "2012" none =
      Except.error (SiteDfError.datasetRead "cf_means") ∧
    SiteDfError.datasetRead "cf_means" ≠ SiteDfError.lookupKeyError ∧
    ([("cf_means_x", [1])] : List (String × List Nat)).lookup "cf_means" = none := by
  decide

/-- C8 (amended): `site_df` tries the year-specific dataset, the mean
dataset, the mean meta column, and otherwise raises the fatal lookup
error — but the two dataset tests are substring checks against the
rendered dataset-name list, so a test can fire without an exactly named
dataset, in which case the subsequent read fails with a dataset-read
error instead of falling through; when an exactly named dataset exists
its branch succeeds, and every success yields a table indexed by the
site gids carrying exactly one capacity-factor column. -/
theorem c8_site_df_fallback (src : CfSource) (cfYear : String) (siteData : Option DataTable) :
    (∀ arr, src.dsets.lookup ("cf_" ++ cfYear) = some arr →
      siteDfCore src cfYear = Except.ok ⟨some "gid", src.gids, [("capacity_factor", arr)]⟩) ∧
    (occursB ("cf_" ++ cfYear).data (pyStrL (src.dsets.map Prod.fst)) = true →
      src.dsets.lookup ("cf_" ++ cfYear) = none →
      siteDfCore src cfYear = Except.error (SiteDfError.datasetRead ("cf_" ++ cfYear))) ∧
    (occursB ("cf_" ++ cfYear).data (pyStrL (src.dsets.map Prod.fst)) = false →
      ∀ arr, src.dsets.lookup "cf_means" = some arr →
      siteDfCore src cfYear = Except.ok ⟨some "gid", src.gids, [("capacity_factor", arr)]⟩) ∧
    (occursB ("cf_" ++ cfYear).data (pyStrL (src.dsets.map Prod.fst)) = false →
      occursB "cf_means".data (pyStrL (src.dsets.map Prod.fst)) = false →
      ((∀ arr, src.metaCols.lookup "cf_means" = some arr →
        siteDfCore src cfYear = Except.ok ⟨some "gid", src.gids, [("capacity_factor", arr)]⟩) ∧
       (src.metaCols.lookup "cf_means" = none →
        siteDfCore src cfYear = Except.error SiteDfError.lookupKeyError))) ∧
    (∀ t, siteDf src cfYear siteData = Except.ok t →
      t.indexName = some "gid" ∧ t.index = src.gids ∧
      (t.cols.map Prod.fst).count "capacity_factor" = 1) := by
  refine ⟨?_, ?_, ?_, ?_, ?_⟩
  · intro arr hlk
    have hocc : occursB ("cf_" ++ cfYear).data (pyStrL (src.dsets.map Prod.fst)) = true :=
      occursB_of_mem (lookup_some_mem_fst hlk)
    unfold siteDfCore
    rw [if_pos hocc, hlk]
  · intro hocc hlk
    unfold siteDfCore
    rw [if_pos hocc, hlk]
  · intro hocc arr hlk
    have hocc2 : occursB "cf_means".data (pyStrL (src.dsets.map Prod.fst)) = true :=
      occursB_of_mem (lookup_some_mem_fst hlk)
    unfold siteDfCore
    rw [if_neg (by rw [hocc]; exact Bool.false_ne_true), if_pos hocc2, hlk]
  · intro hocc hocc2
    constructor
    · intro arr hlk
      unfold siteDfCore
      rw [if_neg (by rw [hocc]; exact Bool.false_ne_true),
        if_neg (by rw [hocc2]; exact Bool.false_ne_true), hlk]
    · intro hlk
      unfold siteDfCore
      rw [if_neg (by rw [hocc]; exact Bool.false_ne_true),
        if_neg (by rw [hocc2]; exact Bool.false_ne_true), hlk]
  · intro t hok
    unfold siteDf at hok
    cases hcore : siteDfCore src cfYear with
    | error e =>
      rw [hcore] at hok
      simp [Except.map] at hok
    | ok t0 =>
      rw [hcore] at hok
      obtain ⟨arr, ht0⟩ := siteDfCore_ok_shape hcore
      subst ht0
      have hval : checkOffshore src siteData
          ⟨some "gid", src.gids, [("capacity_factor", arr)]⟩ = t := by
        have hinj : (fun u : DataTable =>
            if occursB "offshore".data (pyStrL (u.cols.map Prod.fst)) = true then u
            else checkOffshore src siteData u)
            (⟨some "gid", src.gids, [("capacity_factor", arr)]⟩ : DataTable) = t :=
          Except.ok.inj hok
        rw [← hinj]
        show checkOffshore src siteData _ =
          (if occursB "offshore".data (pyStrL ["capacity_factor"]) = true then
            (⟨some "gid", src.gids, [("capacity_factor", arr)]⟩ : DataTable)
          else checkOffshore src siteData ⟨some "gid", src.gids, [("capacity_factor", arr)]⟩)
        rw [if_neg (by decide)]
      rw [← hval]
      unfold checkOffshore
      simp only [List.map_cons, List.map_nil]
      rw [if_neg (by decide)]
      cases hoff : src.metaCols.lookup "offshore" with
      | none =>
        refine ⟨rfl, rfl, ?_⟩
        show List.count "capacity_factor" (["capacity_factor"] : List String) = 1
        decide
      | some arr2 =>
        cases siteData with
        | none =>
          refine ⟨rfl, rfl, ?_⟩
          show List.count "capacity_factor" (["capacity_factor", "offshore"] : List String) = 1
          decide
        | some sd =>
          refine ⟨rfl, rfl, ?_⟩
          unfold mergeSiteData
          simp only [List.map_append, List.map_cons, List.map_nil, List.count_append,
            List.map_map]
          have hzero : List.count "capacity_factor"
              (sd.cols.map (Prod.fst ∘ (fun c =>
                (if ((["capacity_factor"] ++ ["offshore"] : List String)).contains c.1 then
                  c.1 ++ "_site"
                 else c.1, c.2)))) = 0 := by
            rw [List.count_eq_zero]
            intro hmem
            simp only [List.mem_map, Function.comp] at hmem
            obtain ⟨c, _, heq⟩ := hmem
            by_cases hc : ((["capacity_factor"] ++ ["offshore"] : List String)).contains c.1 = true
            · rw [if_pos hc] at heq
              exact suffix_site_ne_cf c.1 heq
            · rw [if_neg hc] at heq
              apply hc
              rw [heq]
              decide
          rw [hzero]
          decide

/-- C8 witness: a source with an exactly named year dataset succeeds
through the first branch, and the resulting table is gid-indexed with a
single capacity-factor column. -/
theorem c8_site_df_fallback_witness :
    siteDfCore ⟨[("cf_2012", [5])], [], [7]⟩ "2012" =
      Except.ok ⟨some "gid", [7], [("capacity_factor", [5])]⟩ ∧
    ((⟨some "gid", [7], [("capacity_factor", [5])]⟩ : DataTable).indexName = some "gid" ∧
     (⟨some "gid", [7], [("capacity_factor", [5])]⟩ : DataTable).index = [7] ∧
     (((⟨some "gid", [7], [("capacity_factor", [5])]⟩ : DataTable).cols.map
       Prod.fst).count "capacity_factor" = 1)) := by
  constructor
  · exact (c8_site_df_fallback ⟨[("cf_2012", [5])], [], [7]⟩ "2012" none).1 [5] (by decide)
  · exact (c8_site_df_fallback ⟨[("cf_2012", [5])], [], [7]⟩ "2012" none).2.2.2.2
      ⟨some "gid", [7], [("capacity_factor", [5])]⟩ (by decide)

theorem lookup_tagged (run : List Nat → PartResult) (parts : List (List Nat)) :
    ∀ (sched : List Nat) (i : Nat), i < parts.length → i ∈ sched →
      (sched.filterMap (fun j => (parts.get? j).map (fun p => (j, run p)))).lookup i =
        (parts.get? i).map run := by
  intro sched
  induction sched with
  | nil => intro i _ hmem; cases hmem
  | cons j rest ih =>
    intro i hi hmem
    rw [List.filterMap_cons]
    cases hj : parts.get? j with
    | none =>
      simp only [Option.map_none']
      have hir : i ∈ rest := by
        rcases List.mem_cons.mp hmem with heq | hr
        · subst heq
          have := List.get?_eq_none.mp hj
          omega
        · exact hr
      exact ih i hi hir
    | some p =>
      simp only [Option.map_some']
      rw [List.lookup_cons]
      by_cases hij : (i == j) = true
      · have heq : i = j := beq_iff_eq.mp hij
        subst heq
        rw [hij, hj]
        rfl
      · rw [Bool.not_eq_true] at hij
        rw [hij]
        have hir : i ∈ rest := by
          rcases List.mem_cons.mp hmem with heq | hr
          · exact absurd (beq_iff_eq.mpr heq) (by rw [hij]; exact Bool.false_ne_true)
          · exact hr
        exact ih i hi hir

theorem filterMap_congr_on {α β : Type} {l : List α} {f g : α → Option β}
    (h : ∀ a ∈ l, f a = g a) : l.filterMap f = l.filterMap g := by
  induction l with
  | nil => rfl
  | cons a rest ih =>
    rw [List.filterMap_cons, List.filterMap_cons, h a (List.mem_cons_self a rest),
      ih (fun b hb => h b (List.mem_cons_of_mem _ hb))]

theorem range_filterMap_map {α β : Type} (l : List α) (f : α → β) :
    (List.range l.length).filterMap (fun i => (l.get? i).map f) = l.map f := by
  induction l with
  | nil => rfl
  | cons a rest ih =>
    rw [List.length_cons, List.range_succ_eq_map, List.filterMap_cons]
    have hcomp : ((fun i => ((a :: rest).get? i).map f) ∘ Nat.succ) =
        fun i => (rest.get? i).map f := by
      funext i
      rfl
    rw [List.filterMap_map, hcomp, ih]
    rfl

theorem executeParallel_eq_single (run : List Nat → PartResult) (parts : List (List Nat))
    (sched : List Nat) (hsched : ∀ i, i < parts.length → i ∈ sched) :
    executeParallelM run parts sched = executeSingleM run parts := by
  unfold executeParallelM executeSingleM
  have h1 : ∀ i ∈ List.range parts.length,
      (sched.filterMap (fun j => (parts.get? j).map (fun p => (j, run p)))).lookup i =
        (parts.get? i).map run := by
    intro i hi
    have hlt := List.mem_range.mp hi
    exact lookup_tagged run parts sched i hlt (hsched i hlt)
  rw [filterMap_congr_on h1]
  exact range_filterMap_map parts run

/-- C9: over the same partition plan and inputs, serial dispatch
(one worker, `execute_single`) and parallel dispatch (several workers,
`execute_parallel` under any completion order covering every partition)
produce the same merged result from `run_direct`; the single-worker path
differs only in skipping parallel dispatch. -/
theorem c9_serial_parallel_equivalent (run : List Nat → PartResult) (parts : List (List Nat))
    (gids : List Nat) (nWorkers : Nat) (sched : List Nat)
    (hsched : ∀ i, i < parts.length → i ∈ sched) :
    runDirect run parts gids nWorkers sched = runDirect run parts gids 1 sched := by
  unfold runDirect
  by_cases h : missingFrom parts.flatten gids ≠ []
  · rw [if_pos h, if_pos h]
  · rw [if_neg h, if_neg h]
    by_cases hw : nWorkers = 1
    · rw [if_pos hw, if_pos rfl]
    · rw [if_neg hw, if_pos rfl, executeParallel_eq_single run parts sched hsched]

/-- C9 witness: a two-partition plan run with four workers under the
reversed completion order merges to the same result as the serial
run. -/
theorem c9_serial_parallel_equivalent_witness :
    runDirect (fun p => p.map (fun s => (s, 2 * s))) [[1], [2, 3]] [1, 2, 3] 4 [1, 0] =
      runDirect (fun p => p.map (fun s => (s, 2 * s))) [[1], [2, 3]] [1, 2, 3] 1 [1, 0] :=
  c9_serial_parallel_equivalent (fun p => p.map (fun s => (s, 2 * s))) [[1], [2, 3]]
    [1, 2, 3] 4 [1, 0] (by decide)

end ReV
